import Mathlib

/-!
# Verification of the BabelNAR core against its specification

This file gives a shallow embedding, in Lean 4, of the parts of the
BabelNAR repository (a Rust interoperability layer for NARS
implementations) that the specification's claims are about:

* the per-CIN input translators (`cin_implements/{opennars,ona,pynars}/translators.rs`),
* the ONA and OpenNARS output translators (head classification and
  termination recognition),
* the Narsese term canonicaliser and semantic equality
  (`test_tools/vm_interact/term_equal.rs`),
* the truth/budget expectation predicates
  (`test_tools/vm_interact/narsese_expectation.rs`),
* the command-VM runtime (`runtimes/command_vm/runtime.rs`) together with
  the line-oriented subprocess channel (`process_io/io_process.rs`), and
* the NAL expectation executor (`test_tools/vm_interact/put_nal.rs`).

Rust `String`s are modelled by Lean `String`s compared by code point
(UTF-8 byte order and code-point order agree, so this agrees with Rust's
derived `Ord`/`PartialEq` on `String`).  Rust `Result<T, E>` is modelled
by `Except E T`, a Rust panic by `Option.none`, and the `f64` values of
truth/budget comparison by exact extended rationals (see `FP` below).
-/

set_option autoImplicit false

namespace BabelNAR

/-! ## String helpers

Code-point level re-implementations of the Rust `str` operations the
translated functions use (`contains`, `split_once`, `to_lowercase`,
`to_uppercase`, `trim_start`, whitespace test, and the derived
lexicographic `Ord`). -/

/-- Does the second list occur at the head of the first one?
(`needle.is_prefix_of haystack` in list-of-chars form.) -/
def charListIsPre : List Char → List Char → Bool
  | [], _ => true
  | _ :: _, [] => false
  | c :: cs, d :: ds => c == d && charListIsPre cs ds

/-- Substring search, `haystack.contains(needle)` of Rust. -/
def charListContains : List Char → List Char → Bool
  | [], needle => needle.isEmpty
  | c :: rest, needle => charListIsPre needle (c :: rest) || charListContains rest needle

/-- Rust `str::contains` on a literal pattern. -/
def strContains (haystack needle : String) : Bool :=
  charListContains haystack.toList needle.toList

/-- Rust `str::split_once(sep)`: split at the first occurrence of the
separator character, which is dropped. -/
def charListSplitOnce (sep : Char) : List Char → Option (List Char × List Char)
  | [] => none
  | c :: rest =>
    if c == sep then some ([], rest)
    else
      match charListSplitOnce sep rest with
      | some (a, b) => some (c :: a, b)
      | none => none

/-- `String` version of `charListSplitOnce`. -/
def strSplitOnce (sep : Char) (s : String) : Option (String × String) :=
  match charListSplitOnce sep s.toList with
  | some (a, b) => some (String.mk a, String.mk b)
  | none => none

/-- Rust `str::to_lowercase` (the strings in question are ASCII). -/
def strToLower (s : String) : String :=
  String.mk (s.toList.map Char.toLower)

/-- Rust `str::to_uppercase` (the strings in question are ASCII). -/
def strToUpper (s : String) : String :=
  String.mk (s.toList.map Char.toUpper)

/-- Rust `str::trim_start`: drop leading whitespace. -/
def strTrimStart (s : String) : String :=
  String.mk (s.toList.dropWhile Char.isWhitespace)

/-- `content.contains(char::is_whitespace)` of Rust. -/
def strHasWhitespace (s : String) : Bool :=
  s.toList.any Char.isWhitespace

/-- Byte-wise comparison of Rust `String`s, i.e. code-point comparison. -/
def charListCmp : List Char → List Char → Ordering
  | [], [] => .eq
  | [], _ :: _ => .lt
  | _ :: _, [] => .gt
  | c :: cs, d :: ds => (compare c.toNat d.toNat).then (charListCmp cs ds)

/-- Rust `String::cmp` (derived lexicographic order). -/
def strCmp (a b : String) : Ordering :=
  charListCmp a.toList b.toList

/-! ## NAVM commands and translator errors

`Cmd` is the NAVM command union of the `navm` dependency, restricted to
the variants the specification's data model names (`NSE`, `CYC`, `VOL`,
`REG`, `REM`, `EXI`); the per-CIN translators match exactly on these and
send everything else to their catch-all error arm.  `NSE` is modelled by
the textual tail of the task (`cmd.tail()` is the only way the
translators consume it). -/

inductive Cmd where
  /-- `NSE(task)`: a Narsese task, carried as its textual form `cmd.tail()`. -/
  | NSE (tail : String)
  /-- `CYC(n)`: advance `n` inference cycles. -/
  | CYC (n : Nat)
  /-- `VOL(n)`: set verbosity. -/
  | VOL (n : Nat)
  /-- `REG { name }`: register an operator. -/
  | REG (name : String)
  /-- `REM { comment }`: a non-semantic comment. -/
  | REM (comment : String)
  /-- `EXI { reason }`: request shutdown. -/
  | EXI (reason : String)
deriving DecidableEq

/-- `cmd.tail()` of the `navm` crate: the textual argument part of the
command.  Only the `NSE` case is consumed by the translators below. -/
def Cmd.tail : Cmd → String
  | .NSE t => t
  | .CYC n => toString n
  | .VOL n => toString n
  | .REG name => name
  | .REM comment => comment
  | .EXI reason => reason

/-- The translator error taxonomy.  `UnsupportedInput` is
`runtimes::TranslateError::UnsupportedInput(cmd)`; `errMsg` models the
older `runtime::TranslateError(format!("该指令类型暂不支持：{cmd:?}"))`
used by the OpenNARS input translator, carrying the offending command in
place of its formatted debug text. -/
inductive TranslateError where
  | UnsupportedInput (cmd : Cmd)
  | errMsg (cmd : Cmd)
deriving DecidableEq

/-! ## Per-CIN input translators (`cin_implements/*/translators.rs`) -/

/-- OpenNARS input translator
(`cin_implements/opennars/translators.rs::input_translate`):
`NSE` ⇒ task tail, `CYC n` ⇒ bare integer, `VOL n` ⇒ `*volume=n`,
anything else (including `REG`, `REM`, `EXI`) ⇒ translation error. -/
def opennars_input_translate : Cmd → Except TranslateError String
  | .NSE t => .ok t
  | .CYC n => .ok (toString n)
  | .VOL n => .ok ("*volume=" ++ toString n)
  | cmd => .error (.errMsg cmd)

/-- `OPERATOR_NAME_LIST` of `cin_implements/ona/translators.rs`: the
operators ONA's shell pre-registers. -/
def OPERATOR_NAME_LIST : List String :=
  ["left", "right", "up", "down", "say", "pick", "drop", "go", "activate", "deactivate"]

/-- `OPERATIONS_MAX` of `cin_implements/ona/translators.rs` (ONA's
fixed-size operator table). -/
def OPERATIONS_MAX : Nat := 10

/-- `hash_operator_id` of `cin_implements/ona/translators.rs`.  The Rust
function ignores its string argument and advances the global counter
`NEXT_OPERATOR_ID`; here the counter is threaded explicitly.  Returns
`(issued id, new counter)` where the new counter is
`(next + 1) % OPERATIONS_MAX` and the issued id is that value plus one. -/
def hash_operator_id (next : Nat) : Nat × Nat :=
  let next' := (next + 1) % OPERATIONS_MAX
  (next' + 1, next')

/-- ONA input translator
(`cin_implements/ona/translators.rs::input_translate`), with the global
operator-id counter threaded as explicit state. -/
def ona_input_translate (cmd : Cmd) (next : Nat) : Except TranslateError (String × Nat) :=
  match cmd with
  | .NSE t => .ok (t, next)
  | .CYC n => .ok (toString n, next)
  | .VOL n => .ok ("*volume=" ++ toString n, next)
  | .REG name =>
    if OPERATOR_NAME_LIST.contains name then .ok ("", next)
    else
      let (i, next') := hash_operator_id next
      .ok ("*setopname " ++ toString i ++ " ^" ++ name, next')
  | .REM _ => .ok ("", next)
  | .EXI _ => .ok ("*quit", next)

/-- Translate a list of commands through the ONA input translator,
threading the operator-id counter; returns the produced strings in call
order. -/
def ona_translate_all : List Cmd → Nat → Except TranslateError (List String × Nat)
  | [], next => .ok ([], next)
  | cmd :: rest, next => do
    let (s, next') ← ona_input_translate cmd next
    let (ss, next'') ← ona_translate_all rest next'
    .ok (s :: ss, next'')

/-- PyNARS input translator
(`cin_implements/pynars/translators.rs::input_translate`):
`NSE` ⇒ task tail, `CYC n` ⇒ bare integer, `VOL n` ⇒ `/volume n`,
`REG { name }` ⇒ `/register name`, `REM` ⇒ empty string,
anything else (`EXI`) ⇒ `UnsupportedInput`. -/
def pynars_input_translate : Cmd → Except TranslateError String
  | .NSE t => .ok t
  | .CYC n => .ok (toString n)
  | .VOL n => .ok ("/volume " ++ toString n)
  | .REG name => .ok ("/register " ++ name)
  | .REM _ => .ok ""
  | cmd => .error (.UnsupportedInput cmd)

/-! ## Lexical Narsese terms (`narsese::lexical::Term`)

The polymorphic term tree of the spec's data model:
`Atom { prefix, name } | Compound { connecter, terms } |
Set { left_bracket, terms, right_bracket } |
Statement { copula, subject, predicate }`.  The Rust `Vec<Term>` becomes
the mutually inductive `TermList` so that every function below is
structurally recursive (and hence reduces inside the kernel).  The Rust
`Atom` field called `prefix` is named `pre` here. -/

mutual

inductive Term where
  | atom (pre name : String)
  | compound (connecter : String) (terms : TermList)
  | set (left_bracket : String) (terms : TermList) (right_bracket : String)
  | statement (copula : String) (subject predicate : Term)

inductive TermList where
  | nil
  | cons (head : Term) (tail : TermList)

end

mutual

/-- Structural equality of terms: Rust's derived `PartialEq` on `Term`. -/
def beqTerm : Term → Term → Bool
  | .atom p1 n1, .atom p2 n2 => p1 == p2 && n1 == n2
  | .compound c1 t1, .compound c2 t2 => c1 == c2 && beqTermList t1 t2
  | .set l1 t1 r1, .set l2 t2 r2 => l1 == l2 && beqTermList t1 t2 && r1 == r2
  | .statement c1 s1 p1, .statement c2 s2 p2 =>
    c1 == c2 && beqTerm s1 s2 && beqTerm p1 p2
  | _, _ => false

/-- Structural equality of term lists. -/
def beqTermList : TermList → TermList → Bool
  | .nil, .nil => true
  | .cons h1 t1, .cons h2 t2 => beqTerm h1 h2 && beqTermList t1 t2
  | _, _ => false

end

/-- `get_identifier` of `term_equal.rs`: the discriminating identifier of
a term (atom prefix, compound connecter, set left bracket, statement
copula). -/
def get_identifier : Term → String
  | .atom pre _ => pre
  | .compound connecter _ => connecter
  | .set left_bracket _ _ => left_bracket
  | .statement copula _ _ => copula

/-- `is_variable_atom_prefix` of `term_equal.rs`: is this atom prefix one
of the variable markers `$` (independent), `#` (dependent), `?` (query)?
(The ASCII format constants of the `narsese` crate.) -/
def is_variable_atom_marker (pre : String) : Bool :=
  pre == "$" || pre == "#" || pre == "?"

/-! ### Variable renaming (`rename_variables_in_term_with_map`)

The Rust code uses a `HashMap<String, String>`; all its observations
(`get`, `insert`, `len`, an order-independent `any`) are modelled by an
association list whose keys stay distinct because `insert` updates in
place. -/

/-- The `VariableNameMap` of `term_equal.rs`. -/
def VarMap : Type := List (String × String)

/-- `HashMap::get`. -/
def vmGet : VarMap → String → Option String
  | [], _ => none
  | (k, v) :: rest, key => if k == key then some v else vmGet rest key

/-- `HashMap::insert`: update the value of an existing key, else append. -/
def vmInsert : VarMap → String → String → VarMap
  | [], key, value => [(key, value)]
  | (k, v) :: rest, key, value =>
    if k == key then (k, value) :: rest else (k, v) :: vmInsert rest key value

/-- `HashMap::len` (the keys of a `VarMap` are distinct by construction). -/
def vmLen (m : VarMap) : Nat := m.length

/-- `map.iter().any(|(k, v)| k != v)` — order-independent, so the
association-list order is irrelevant. -/
def vmAnyNe (m : VarMap) : Bool := m.any (fun p => !(p.1 == p.2))

mutual

/-- `find_variables_renaming` of `term_equal.rs`: walk the term in
depth-first order and give every variable atom its first-occurrence
number (an existing entry keeps its number; a new variable gets
`map.len() + 1`). -/
def find_variables_renaming : Term → VarMap → VarMap
  | .atom pre name, map =>
    if is_variable_atom_marker pre then
      let new_name :=
        match vmGet map name with
        | some n => n
        | none => toString (vmLen map + 1)
      vmInsert map name new_name
    else map
  | .compound _ terms, map => find_variables_renaming_list terms map
  | .set _ terms _, map => find_variables_renaming_list terms map
  | .statement _ subject predicate, map =>
    find_variables_renaming predicate (find_variables_renaming subject map)

/-- `find_variables_renaming` over the children of a compound/set. -/
def find_variables_renaming_list : TermList → VarMap → VarMap
  | .nil, map => map
  | .cons head tail, map =>
    find_variables_renaming_list tail (find_variables_renaming head map)

end

mutual

/-- `apply_name_substitute` of `term_equal.rs`.  Note that — exactly as
in the source — the substitution is applied to every atom whose *name*
is a key of the map, with no check of the atom's prefix. -/
def apply_name_substitute : Term → VarMap → Term
  | .atom pre name, map =>
    match vmGet map name with
    | some new_name => .atom pre new_name
    | none => .atom pre name
  | .compound connecter terms, map =>
    .compound connecter (apply_name_substitute_list terms map)
  | .set l terms r, map => .set l (apply_name_substitute_list terms map) r
  | .statement copula subject predicate, map =>
    .statement copula (apply_name_substitute subject map) (apply_name_substitute predicate map)

/-- `apply_name_substitute` over the children of a compound/set. -/
def apply_name_substitute_list : TermList → VarMap → TermList
  | .nil, _ => .nil
  | .cons head tail, map =>
    .cons (apply_name_substitute head map) (apply_name_substitute_list tail map)

end

/-- `rename_variables_in_term_with_map` of `term_equal.rs`: collect the
renaming map, report whether any entry differs from its key, and apply
the substitution only in that case.  Returns the (possibly renamed) term
and the `modified` flag. -/
def rename_variables_in_term_with_map (t : Term) (map : VarMap) : Term × Bool :=
  let map' := find_variables_renaming t map
  let modified := vmAnyNe map'
  (if modified then apply_name_substitute t map' else t, modified)

/-! ### Commutative sorting (`sort_communicative_terms`) -/

/-- `is_communicative_term` of `term_equal.rs`: the commutative
identifiers — extensional/intensional set brackets, extensional/
intensional intersection, conjunction, disjunction, parallel
conjunction, similarity, equivalence, concurrent equivalence (ASCII
format constants of the `narsese` crate). -/
def is_communicative_term (identifier : String) : Bool :=
  identifier == "\x7b" || identifier == "[" ||
  identifier == "&" || identifier == "|" ||
  identifier == "&&" || identifier == "||" ||
  identifier == "&|" ||
  identifier == "<->" || identifier == "<=>" || identifier == "<|>"

/-- Rust's derived discriminant order on `Term`
(`Atom < Compound < Set < Statement`), used by `Term::cmp` when the two
variants differ. -/
def ctorIdx : Term → Nat
  | .atom _ _ => 0
  | .compound _ _ => 1
  | .set _ _ _ => 2
  | .statement _ _ _ => 3

mutual

/-- `term_comparator` of `term_equal.rs`.  Variable atoms all compare
equal to one another; a non-variable atom is less than a variable one;
compounds/sets compare by identifier and then by a fold of the zipped
child comparisons (the zip ignores a length difference, as in the
source); statements compare by copula, then subject, then predicate;
terms of different variants fall back to the derived discriminant
order. -/
def term_comparator : Term → Term → Ordering
  | .atom p1 n1, .atom p2 n2 =>
    match is_variable_atom_marker p1, is_variable_atom_marker p2 with
    | true, true => .eq
    | false, true => .lt
    | true, false => .gt
    | false, false => (strCmp p1 p2).then (strCmp n1 n2)
  | .compound c1 t1, .compound c2 t2 =>
    (strCmp c1 c2).then (term_comparator_zip t1 t2)
  | .set c1 t1 _, .set c2 t2 _ =>
    (strCmp c1 c2).then (term_comparator_zip t1 t2)
  | .statement c1 s1 p1, .statement c2 s2 p2 =>
    (strCmp c1 c2).then ((term_comparator s1 s2).then (term_comparator p1 p2))
  | t1, t2 => compare (ctorIdx t1) (ctorIdx t2)

/-- The `zip … fold(Equal, Ordering::then)` part of `term_comparator`:
comparisons of zipped children, stopping at the shorter list. -/
def term_comparator_zip : TermList → TermList → Ordering
  | .cons h1 t1, .cons h2 t2 =>
    (term_comparator h1 h2).then (term_comparator_zip t1 t2)
  | _, _ => .eq

end

/-- Stable insertion of a term into an already-sorted list: the new
element goes before the first element it does not strictly exceed.  For
lists of at most two children (the only sizes exercised by the theorems
below) every stable sort — in particular Rust's `sort_by` — produces
exactly this result. -/
def sortInsertTerm (x : Term) : TermList → TermList
  | .nil => .cons x .nil
  | .cons y ys =>
    match term_comparator x y with
    | .gt => .cons y (sortInsertTerm x ys)
    | _ => .cons x (.cons y ys)

/-- Stable sort of a child list by `term_comparator`, modelling Rust's
stable `sort_by`. -/
def stableSortTerms : TermList → TermList
  | .nil => .nil
  | .cons h t => sortInsertTerm h (stableSortTerms t)

/-- `sort_a_communicative_term` of `term_equal.rs`: sort the direct
children of one commutative compound/set (reporting whether the order
changed), or swap the subject and predicate of a commutative statement
when the subject compares greater. -/
def sort_a_communicative_term : Term → Term × Bool
  | .compound connecter terms =>
    let sorted := stableSortTerms terms
    (.compound connecter sorted, !(beqTermList terms sorted))
  | .set l terms r =>
    let sorted := stableSortTerms terms
    (.set l sorted r, !(beqTermList terms sorted))
  | .statement copula subject predicate =>
    match term_comparator subject predicate with
    | .gt => (.statement copula predicate subject, true)
    | _ => (.statement copula subject predicate, false)
  | t => (t, false)

/-- The tail of `sort_communicative_terms`: after the children have been
sorted recursively, sort the current level itself when its identifier is
commutative. -/
def sort_level (t : Term) (modified : Bool) : Term × Bool :=
  if is_communicative_term (get_identifier t) then
    let (t', m') := sort_a_communicative_term t
    (t', m' || modified)
  else (t, modified)

mutual

/-- `sort_communicative_terms` of `term_equal.rs`: recursively sort
every commutative level of the term, bottom-up, reporting whether
anything changed. -/
def sort_communicative_terms : Term → Term × Bool
  | .compound connecter terms =>
    let (terms', m) := sort_communicative_terms_list terms
    sort_level (.compound connecter terms') m
  | .set l terms r =>
    let (terms', m) := sort_communicative_terms_list terms
    sort_level (.set l terms' r) m
  | .statement copula subject predicate =>
    let (subject', ms) := sort_communicative_terms subject
    let (predicate', mp) := sort_communicative_terms predicate
    sort_level (.statement copula subject' predicate') (ms || mp)
  | t => sort_level t false

/-- `sort_communicative_terms` over a child list (every child is sorted;
no short-circuiting). -/
def sort_communicative_terms_list : TermList → TermList × Bool
  | .nil => (.nil, false)
  | .cons head tail =>
    let (head', mh) := sort_communicative_terms head
    let (tail', mt) := sort_communicative_terms_list tail
    (.cons head' tail', mh || mt)

end

/-! ### Canonicalisation (`formalize_term`) and semantic equality -/

/-- `MAX_TRIES_FORMALIZE = 0x100` of `term_equal.rs`. -/
def MAX_TRIES_FORMALIZE : Nat := 256

/-- One iteration of the `formalize_term` loop: rename variables (with a
fresh map, as the Rust loop clears it every round), then sort; the flag
is `sort-modified || rename-modified` exactly as in the source. -/
def formalize_step (t : Term) : Term × Bool :=
  let (t1, m1) := rename_variables_in_term_with_map t []
  let (t2, m2) := sort_communicative_terms t1
  (t2, m2 || m1)

/-- The bounded loop of `formalize_term`: up to `fuel` iterations of
`formalize_step`, returning the term once an iteration changes nothing;
`none` models the `panic!` raised when the bound is exhausted. -/
def formalize_loop : Nat → Term → Option Term
  | 0, _ => none
  | fuel + 1, t =>
    let (t', m) := formalize_step t
    if m then formalize_loop fuel t' else some t'

/-- `formalize_term` of `term_equal.rs` (`none` = the convergence
`panic!`). -/
def formalize_term (t : Term) : Option Term :=
  formalize_loop MAX_TRIES_FORMALIZE t

/-- `semantical_equal_mut` of `term_equal.rs`: canonicalise both terms
and compare structurally (`none` when either canonicalisation panics). -/
def semantical_equal_mut (t1 t2 : Term) : Option Bool := do
  let u1 ← formalize_term t1
  let u2 ← formalize_term t2
  pure (beqTerm u1 u2)

/-! ## Truth/budget expectation (`test_tools/vm_interact/narsese_expectation.rs`)

`FloatPrecision` is Rust `f64`.  It is modelled by exact extended
rationals: finite values, the two infinities, and NaN, with the IEEE
comparison/subtraction rules on those classes (rounding of finite
arithmetic is not modelled — the comparisons under test are exact at the
granularity the claims speak about, and `f64` subtraction of exactly
represented operands with an exactly represented result agrees with the
rational one). -/

inductive FP where
  | nan
  | inf
  | ninf
  | fin (q : ℚ)
deriving DecidableEq

/-- IEEE `==` on the model: NaN equals nothing, infinities equal
themselves, finite values compare exactly. -/
def fpEq : FP → FP → Bool
  | .fin a, .fin b => a == b
  | .inf, .inf => true
  | .ninf, .ninf => true
  | _, _ => false

/-- IEEE `<=` on the model: false whenever NaN is involved. -/
def fpLe : FP → FP → Bool
  | .nan, _ => false
  | _, .nan => false
  | .ninf, _ => true
  | _, .inf => true
  | .inf, _ => false
  | _, .ninf => false
  | .fin a, .fin b => a ≤ b

/-- IEEE subtraction on the model (`∞ − ∞ = NaN` etc.). -/
def fpSub : FP → FP → FP
  | .nan, _ => .nan
  | _, .nan => .nan
  | .inf, .inf => .nan
  | .ninf, .ninf => .nan
  | .inf, _ => .inf
  | .ninf, _ => .ninf
  | .fin _, .inf => .ninf
  | .fin _, .ninf => .inf
  | .fin a, .fin b => .fin (a - b)

/-- IEEE `abs` on the model. -/
def fpAbs : FP → FP
  | .nan => .nan
  | .inf => .inf
  | .ninf => .inf
  | .fin a => .fin |a|

/-- `is_expected_float` of `narsese_expectation.rs`: when the epsilon is
(IEEE-)equal to `0.0`, exact equality; otherwise
`|expected − out| <= precision_epoch`. -/
def is_expected_float (expected out precision_epoch : FP) : Bool :=
  if fpEq precision_epoch (.fin 0) then fpEq expected out
  else fpLe (fpAbs (fpSub expected out)) precision_epoch

/-- `enum_narsese::Truth`: empty, single (frequency) or double
(frequency; confidence). -/
inductive EnumTruth where
  | Empty
  | Single (f : FP)
  | Double (f c : FP)
deriving DecidableEq

/-- `enum_narsese::Budget`: empty, single, double or triple. -/
inductive EnumBudget where
  | Empty
  | Single (p : FP)
  | Double (p d : FP)
  | Triple (p d q : FP)
deriving DecidableEq

/-- `is_expected_truth` of `narsese_expectation.rs`: an `Empty` expected
truth is a wildcard; a single expected truth checks the frequency of a
single or double output truth; a double expected truth checks both
components of a double output truth; everything else fails. -/
def is_expected_truth (expected out : EnumTruth) (precision_epoch : FP) : Bool :=
  match expected, out with
  | .Empty, _ => true
  | .Single fe, .Single fo => is_expected_float fe fo precision_epoch
  | .Single fe, .Double fo _ => is_expected_float fe fo precision_epoch
  | .Double fe ce, .Double fo co =>
    is_expected_float fe fo precision_epoch && is_expected_float ce co precision_epoch
  | _, _ => false

/-- `is_expected_budget` of `narsese_expectation.rs`, analogous to
`is_expected_truth` with the `Triple` case added. -/
def is_expected_budget (expected out : EnumBudget) (precision_epoch : FP) : Bool :=
  match expected, out with
  | .Empty, _ => true
  | .Single pe, .Single po => is_expected_float pe po precision_epoch
  | .Single pe, .Double po _ => is_expected_float pe po precision_epoch
  | .Single pe, .Triple po _ _ => is_expected_float pe po precision_epoch
  | .Double pe de, .Double po do_ =>
    is_expected_float pe po precision_epoch && is_expected_float de do_ precision_epoch
  | .Double pe de, .Triple po do_ _ =>
    is_expected_float pe po precision_epoch && is_expected_float de do_ precision_epoch
  | .Triple pe de qe, .Triple po do_ qo =>
    is_expected_float pe po precision_epoch && is_expected_float de do_ precision_epoch &&
      is_expected_float qe qo precision_epoch
  | _, _ => false

/-- The `@EMPTY_WILDCARD` arm of `PartialFoldResult::is_expected_out`
for the truth slot: both present ⇒ compare, expected absent ⇒ wildcard,
expected present but output absent ⇒ fail. -/
def is_expected_truth_slot (expected out : Option EnumTruth) (precision_epoch : FP) : Bool :=
  match expected, out with
  | some e, some o => is_expected_truth e o precision_epoch
  | none, _ => true
  | _, _ => false

/-- The `@EMPTY_WILDCARD` arm of `PartialFoldResult::is_expected_out`
for the budget slot. -/
def is_expected_budget_slot (expected out : Option EnumBudget) (precision_epoch : FP) : Bool :=
  match expected, out with
  | some e, some o => is_expected_budget e o precision_epoch
  | none, _ => true
  | _, _ => false

/-! ## NAVM outputs (`navm::output::Output`) -/

/-- Lexical Narsese value: a bare term, a sentence, or a task.  Truth
and budget are kept verbatim as decimal strings, as in the spec's data
model. -/
inductive Narsese where
  | term (t : Term)
  | sentence (t : Term) (punctuation stamp : String) (truth : List String)
  | task (budget : List String) (t : Term) (punctuation stamp : String) (truth : List String)

/-- `navm::output::Operation`: an operator name and its parameter terms. -/
structure Operation where
  operator_name : String
  params : List Term

/-- The NAVM output union, with the payloads the embedded translators
construct.  (`UNCLASSIFIED`'s Rust field `r#type` is called `type_`.) -/
inductive Output where
  | IN (narsese : Option Narsese) (content : String)
  | OUT (narsese : Option Narsese) (content_raw : String)
  | ANSWER (narsese : Option Narsese) (content_raw : String)
  | ACHIEVED (narsese : Option Narsese) (content_raw : String)
  | EXE (operation : Operation) (content_raw : String)
  | INFO (message : String)
  | COMMENT (content : String)
  | ERROR (description : String)
  | TERMINATED (description : String)
  | UNCLASSIFIED (type_ : String) (narsese : Option Narsese) (content : String)
  | OTHER (content : String)

/-! ## The command-VM runtime (`runtimes/command_vm/runtime.rs`)

The `IoProcessManager` of `process_io/io_process.rs` is modelled by its
two line queues: `sent` is the outbound queue the writer thread drains
into the child's stdin (each entry is written verbatim, so an entry is
exactly one line when it ends in a newline), and `pending` is the
inbound queue of lines the reader thread has pushed.  `kill` (raising
the termination flag, the sentinel write, `taskkill`, joining the
threads) always succeeds in the model and is otherwise outside the
shallow embedding.  The two boxed translator closures of
`CommandVmRuntime` are passed to each operation as explicit function
parameters. -/

structure IoProc where
  /-- Lines handed to the writer thread via `put`/`put_line`, in order. -/
  sent : List String
  /-- Lines read from the child, not yet fetched. -/
  pending : List String

/-- `IoProcessManager::put`: enqueue a string for the writer thread
(the caller supplies its own newline). -/
def IoProc.put (p : IoProc) (input : String) : IoProc :=
  { p with sent := p.sent ++ [input] }

/-- `IoProcessManager::put_line`: `put` with a newline appended. -/
def IoProc.put_line (p : IoProc) (input : String) : IoProc :=
  p.put (input ++ "\n")

/-- `navm::vm::VmStatus`: `Running` or `Terminated(Result<(), Error>)`
(the error is its description string). -/
inductive VmStatus where
  | Running
  | Terminated (result : Except String Unit)

instance : DecidableEq VmStatus
  | .Running, .Running => .isTrue rfl
  | .Running, .Terminated _ => .isFalse (by intro h; cases h)
  | .Terminated _, .Running => .isFalse (by intro h; cases h)
  | .Terminated (.ok ()), .Terminated (.ok ()) => .isTrue rfl
  | .Terminated (.ok ()), .Terminated (.error _) => .isFalse (by intro h; cases h)
  | .Terminated (.error _), .Terminated (.ok ()) => .isFalse (by intro h; cases h)
  | .Terminated (.error d1), .Terminated (.error d2) =>
    if h : d1 = d2 then .isTrue (by rw [h])
    else .isFalse (by intro hh; cases hh; exact h rfl)

/-- `CommandVmRuntime`: the process channel plus the status variable.
(The two translators are passed to each operation explicitly.) -/
structure CommandVmRuntime where
  process : IoProc
  status : VmStatus

/-- Errors of the runtime operations: a translator error, or the
channel-torn-down error of a fetch on a closed, drained channel. -/
inductive VmError where
  | translate (e : TranslateError)
  | channelClosed

/-- An input translator, `Cmd → Result<String, _>`. -/
def InputTranslator : Type := Cmd → Except TranslateError String

/-- An output translator, `String → Result<Output, _>`. -/
def OutputTranslator : Type := String → Except TranslateError Output

/-- `CommandVmRuntime::input_cmd`: translate the command; an empty
translation returns success without writing; otherwise `put_line` the
translation (which appends the newline). -/
def input_cmd (itr : InputTranslator) (vm : CommandVmRuntime) (cmd : Cmd) :
    Except VmError CommandVmRuntime :=
  match itr cmd with
  | .error e => .error (.translate e)
  | .ok input =>
    if input = "" then .ok vm
    else .ok { vm with process := vm.process.put_line input }

/-- `CommandVmRuntime::fetch_output`: blocking fetch of the next line,
then translate.  The status is **not** touched (this mirrors the source:
only `try_fetch_output` inspects the translated output).  A fetch on the
empty queue blocks in Rust; the model reports the torn-down-channel
error instead, a case no theorem below exercises. -/
def fetch_output (otr : OutputTranslator) (vm : CommandVmRuntime) :
    Except VmError (CommandVmRuntime × Output) :=
  match vm.process.pending with
  | [] => .error .channelClosed
  | line :: rest =>
    match otr line with
    | .error e => .error (.translate e)
    | .ok output => .ok ({ vm with process := { vm.process with pending := rest } }, output)

/-- `CommandVmRuntime::try_fetch_output`: non-blocking fetch; when the
translated output is `TERMINATED`, the status is set to
`Terminated(Err(description))` before the output is returned. -/
def try_fetch_output (otr : OutputTranslator) (vm : CommandVmRuntime) :
    Except VmError (CommandVmRuntime × Option Output) :=
  match vm.process.pending with
  | [] => .ok (vm, none)
  | line :: rest =>
    match otr line with
    | .error e => .error (.translate e)
    | .ok output =>
      let vm' := { vm with process := { vm.process with pending := rest } }
      let vm' :=
        match output with
        | .TERMINATED description => { vm' with status := .Terminated (.error description) }
        | _ => vm'
      .ok (vm', some output)

/-- `CommandVmRuntime::terminate`: kill the channel (always succeeds in
the model) and overwrite the status with `Terminated(Ok(()))`. -/
def terminate (vm : CommandVmRuntime) : Except VmError CommandVmRuntime :=
  .ok { vm with status := .Terminated (.ok ()) }

/-- The state-changing operations of the `VmRuntime` contract, for
statements about arbitrary operation sequences. -/
inductive RuntimeOp where
  | inputCmd (cmd : Cmd)
  | fetchOutput
  | tryFetchOutput
  | terminate

/-- Apply one runtime operation to a runtime state. -/
def apply_op (itr : InputTranslator) (otr : OutputTranslator) (op : RuntimeOp)
    (vm : CommandVmRuntime) : Except VmError CommandVmRuntime :=
  match op with
  | .inputCmd cmd => input_cmd itr vm cmd
  | .fetchOutput => (fetch_output otr vm).map Prod.fst
  | .tryFetchOutput => (try_fetch_output otr vm).map Prod.fst
  | .terminate => terminate vm

/-- `input_cmd` over a list of commands, in call order. -/
def run_input_cmds (itr : InputTranslator) (vm : CommandVmRuntime) :
    List Cmd → Except VmError CommandVmRuntime
  | [] => .ok vm
  | cmd :: rest =>
    match input_cmd itr vm cmd with
    | .error e => .error e
    | .ok vm' => run_input_cmds itr vm' rest

/-- The lines a list of commands should put on the child's stdin: one
`translation ++ "\n"` entry per command whose translation succeeds and
is non-empty, in call order. -/
def translated_lines (itr : InputTranslator) : List Cmd → List String
  | [] => []
  | cmd :: rest =>
    (match itr cmd with
      | .ok s => if s = "" then [] else [s ++ "\n"]
      | .error _ => []) ++ translated_lines itr rest

/-! ## The NAL expectation executor (`test_tools/vm_interact/put_nal.rs`)

The output cache of the `VmOutputCache` trait is modelled as the ordered
list of outputs it holds: `put` appends, `for_each` scans in order (its
first-match use in `nal_expect_contains`/`nal_expect_cycle` is the
existence of a matching element).  The `OutputExpectation` match predicate
predicate is passed as an opaque `Output → Bool`, and the expectation's
`Display` form (used only in the synthetic `INFO` line) as a string. -/

/-- Errors of the NAL executor: a propagated runtime error, the
`OutputExpectationError::ExpectedNotExists` failure, or the fuel
artifact `nonTermination` (the Rust `expect-cycle` loop with
`step_cycles = 0 < max_cycles` never terminates; the model's fuel is
chosen so this constructor is reached exactly in that situation). -/
inductive NalError where
  | vm (e : VmError)
  | expectedNotExists
  | nonTermination

/-- The drain loop `while let Some(output) = vm.try_fetch_output()? {
output_cache.put(output)?; }`, unrolled over the pending queue: each
line is translated (errors abort), a `TERMINATED` output flips the
status, and every output is appended to the cache. -/
def drain_go (otr : OutputTranslator) (status : VmStatus) :
    List String → List Output → Except NalError (VmStatus × List Output)
  | [], cache => .ok (status, cache)
  | line :: rest, cache =>
    match otr line with
    | .error e => .error (.vm (.translate e))
    | .ok output =>
      let status' :=
        match output with
        | .TERMINATED d => VmStatus.Terminated (.error d)
        | _ => status
      drain_go otr status' rest (cache ++ [output])

/-- Drain every pending output of the runtime into the cache. -/
def drain_outputs (otr : OutputTranslator) (vm : CommandVmRuntime) (cache : List Output) :
    Except NalError (CommandVmRuntime × List Output) :=
  match drain_go otr vm.status vm.process.pending cache with
  | .error e => .error e
  | .ok (status', cache') =>
    .ok ({ vm with status := status', process := { vm.process with pending := [] } }, cache')

/-- `nal_expect_contains` of `put_nal.rs`: drain all pending outputs
into the cache, then scan the cache; success exactly when some cached
output matches the predicate, else `ExpectedNotExists`. -/
def nal_expect_contains (otr : OutputTranslator) (pred : Output → Bool)
    (vm : CommandVmRuntime) (cache : List Output) :
    Except NalError (CommandVmRuntime × List Output) :=
  match drain_outputs otr vm cache with
  | .error e => .error e
  | .ok (vm', cache') =>
    if cache'.any pred then .ok (vm', cache')
    else .error .expectedNotExists

/-- The loop body of `nal_expect_cycle`: while `cycles < max_cycles`,
issue `CYC step_cycles`, add `step_cycles` to the counter, (sleep,)
drain, scan the cache; on the first match push the synthetic
`INFO "expect-cycle(<cycles>): <expectation>"` output and succeed; once
the counter reaches the bound, fail with `ExpectedNotExists`.  `fuel`
only bounds the recursion depth; `nal_expect_cycle` passes enough of it
that `nonTermination` is reached only when the Rust loop itself would
not terminate (`step_cycles = 0 < max_cycles`). -/
def nal_expect_cycle_go (itr : InputTranslator) (otr : OutputTranslator)
    (pred : Output → Bool) (expectation_str : String) (step_cycles : Nat) :
    Nat → Nat → Nat → CommandVmRuntime → List Output →
    Except NalError (CommandVmRuntime × List Output)
  | fuel, cycles, max_cycles, vm, cache =>
    if cycles < max_cycles then
      match fuel with
      | 0 => .error .nonTermination
      | fuel' + 1 =>
        match input_cmd itr vm (Cmd.CYC step_cycles) with
        | .error e => .error (.vm e)
        | .ok vm =>
          let cycles' := cycles + step_cycles
          match drain_outputs otr vm cache with
          | .error e => .error e
          | .ok (vm, cache) =>
            if cache.any pred then
              let message := "expect-cycle(" ++ toString cycles' ++ "): " ++ expectation_str
              .ok (vm, cache ++ [Output.INFO message])
            else
              nal_expect_cycle_go itr otr pred expectation_str step_cycles
                fuel' cycles' max_cycles vm cache
    else .error .expectedNotExists

/-- `nal_expect_cycle` of `put_nal.rs` (the `step_duration` sleep has no
state effect and is omitted). -/
def nal_expect_cycle (itr : InputTranslator) (otr : OutputTranslator)
    (pred : Output → Bool) (expectation_str : String)
    (max_cycles step_cycles : Nat) (vm : CommandVmRuntime) (cache : List Output) :
    Except NalError (CommandVmRuntime × List Output) :=
  nal_expect_cycle_go itr otr pred expectation_str step_cycles
    (max_cycles + 1) 0 max_cycles vm cache

/-! ## Per-CIN output translators (ONA and OpenNARS)

`output_translate` of `cin_implements/ona/translators.rs` and of
`cin_implements/opennars/translators.rs`.  The dialect parsers these
call (`parse_narsese_ona`, `parse_operation_ona`, `parse_anticipate_ona`,
`parse_narsese_opennars`, `parse_operation_opennars`,
`try_parse_narsese`) are separate functions of the source; they are
passed in as opaque parameters, since the classification into output
variants — what the claims are about — does not depend on what they
return. -/

/-- ONA `output_translate`.  The guarded matching of the source is
rendered as a chain of conditionals in source order, so a line whose
lowercased head is `answer` but which contains `Answer: None.` falls
through to the later arms exactly as in Rust. -/
def ona_output_translate
    (parse_narsese : String → String → Except TranslateError (Option Narsese))
    (parse_operation : String → Except TranslateError Operation)
    (parse_anticipate : String → Except TranslateError (Option Narsese))
    (content_raw : String) : Except TranslateError Output :=
  if strContains content_raw "Test failed." then .ok (.TERMINATED content_raw)
  else if strContains content_raw "Operator index out of bounds" then
    .ok (.ERROR content_raw)
  else
    let ht :=
      match strSplitOnce ':' content_raw with
      | some p => p
      | none => ("", "")
    let head := ht.1
    let tail := ht.2
    let headLower := strToLower head
    if headLower == "answer" && !strContains content_raw "Answer: None." then
      match parse_narsese head tail with
      | .error e => .error e
      | .ok narsese => .ok (.ANSWER narsese content_raw)
    else if headLower == "derived" then
      match parse_narsese head tail with
      | .error e => .error e
      | .ok narsese => .ok (.OUT narsese content_raw)
    else if headLower == "input" then
      match parse_narsese head tail with
      | .error e => .error e
      | .ok narsese => .ok (.IN narsese content_raw)
    else if headLower == "err" || headLower == "error" then
      .ok (.ERROR content_raw)
    else if strContains content_raw "executed with args" then
      match parse_operation content_raw with
      | .error e => .error e
      | .ok operation => .ok (.EXE operation content_raw)
    else if strContains content_raw "decision expectation=" then
      match parse_anticipate content_raw with
      | .error e => .error e
      | .ok narsese => .ok (.UNCLASSIFIED "ANTICIPATE" narsese content_raw)
    else if !strHasWhitespace content_raw then
      .ok (.UNCLASSIFIED head none content_raw)
    else
      .ok (.OTHER content_raw)

/-- The head dispatch of the OpenNARS `output_translate` (its `match`
on the upper-cased head).  Note the `upper if head == upper` arm that
catches all-uppercase heads as `UNCLASSIFIED`. -/
def opennars_classify
    (parse_narsese : String → String → Except TranslateError (Option Narsese))
    (parse_operation : String → Operation)
    (try_parse : String → Except TranslateError Narsese)
    (content_raw head tail : String) : Except TranslateError Output :=
  if strToUpper head == "IN" then
    match parse_narsese head tail with
    | .error e => .error e
    | .ok narsese => .ok (.IN narsese content_raw)
  else if strToUpper head == "OUT" then
    match parse_narsese head tail with
    | .error e => .error e
    | .ok narsese => .ok (.OUT narsese content_raw)
  else if strToUpper head == "ANSWER" then
    match parse_narsese head tail with
    | .error e => .error e
    | .ok narsese => .ok (.ANSWER narsese content_raw)
  else if strToUpper head == "EXE" then
    .ok (.EXE (parse_operation (strTrimStart tail)) content_raw)
  else if strToUpper head == "ANTICIPATE" then
    .ok (.UNCLASSIFIED "ANTICIPATE" (try_parse tail).toOption content_raw)
  else if strToUpper head == "ERR" || strToUpper head == "ERROR" then
    .ok (.ERROR content_raw)
  else if head == strToUpper head then
    .ok (.UNCLASSIFIED head none content_raw)
  else
    .ok (.OTHER content_raw)

/-- OpenNARS `output_translate`: split the line at the first colon (note
the default `("", content_raw)` when there is none, different from
ONA's) and dispatch on the head. -/
def opennars_output_translate
    (parse_narsese : String → String → Except TranslateError (Option Narsese))
    (parse_operation : String → Operation)
    (try_parse : String → Except TranslateError Narsese)
    (content_raw : String) : Except TranslateError Output :=
  match strSplitOnce ':' content_raw with
  | some p => opennars_classify parse_narsese parse_operation try_parse content_raw p.1 p.2
  | none => opennars_classify parse_narsese parse_operation try_parse content_raw "" content_raw

/-! ## Concrete instances used by the theorems below -/

/-- An output translator that maps every line to `TERMINATED` with the
line as description. -/
def otr_terminating : OutputTranslator := fun s => .ok (.TERMINATED s)

/-- An output translator that wraps every line in `OTHER` (the default
translator of the debugging pass-through pair). -/
def otr_other : OutputTranslator := fun s => .ok (.OTHER s)

/-- An input translator that serialises every command by its tail (the
PyNARS test translator `|cmd| Ok(cmd.tail())`). -/
def itr_tail : InputTranslator := fun c => .ok c.tail

/-- A freshly launched runtime: empty queues, `Running`. -/
def vm_zero : CommandVmRuntime := ⟨⟨[], []⟩, .Running⟩

/-- A running runtime whose child has printed one line `die`. -/
def vm_die : CommandVmRuntime := ⟨⟨[], ["die"]⟩, .Running⟩

/-- The runtime `vm_zero` after the two suppressed-plus-written commands
of the `c5` witness. -/
def vm_c5_done : CommandVmRuntime := ⟨⟨["<A --> B>.\n", "5\n"], []⟩, .Running⟩

/-- Stub Narsese payload parser (never used by the classification under
test). -/
def pn_stub : String → String → Except TranslateError (Option Narsese) := fun _ _ => .ok none

/-- Stub ONA operation parser. -/
def po_ona_stub : String → Except TranslateError Operation := fun _ => .ok ⟨"UNKNOWN", []⟩

/-- Stub ONA anticipate parser. -/
def pa_stub : String → Except TranslateError (Option Narsese) := fun _ => .ok none

/-- Stub OpenNARS operation parser (infallible in the source). -/
def po_opennars_stub : String → Operation := fun _ => ⟨"", []⟩

/-- Stub OpenNARS `try_parse_narsese`. -/
def tp_stub : String → Except TranslateError Narsese := fun s => .error (.errMsg (.REM s))

/-- The only out-of-operator-slots message in the code base (printed by
ONA itself; quoted in `cin_implements/ona/translators.rs`). -/
def oob_line : String :=
  "Operator index out of bounds, it can only be between 1 and OPERATIONS_MAX!"

/-- Match predicate of an expectation that accepts every `ANSWER`
output. -/
def pred_answer : Output → Bool := fun o =>
  match o with
  | .ANSWER _ _ => true
  | _ => false

/-- An output cache already holding a matching `ANSWER` output. -/
def cache_answer : List Output := [.ANSWER none "Answer: <A --> C>."]

/-- The term `<$a --> a>`: the variable `$a` and a constant atom of the
same name. -/
def term_var_a_const_a : Term := .statement "-->" (.atom "$" "a") (.atom "" "a")

/-- The term `<$b --> a>`: `term_var_a_const_a` with its variable (and
only its variable) renamed from `$a` to `$b`. -/
def term_var_b_const_a : Term := .statement "-->" (.atom "$" "b") (.atom "" "a")

/-- The term `(&&, <$a --> b>, <$b --> a>)`, on which the
canonicalisation loop never stabilises. -/
def cycle_term : Term :=
  .compound "&&"
    (.cons (.statement "-->" (.atom "$" "a") (.atom "" "b"))
      (.cons (.statement "-->" (.atom "$" "b") (.atom "" "a")) .nil))

/-- The state `(&&, <$2 --> 1>, <$1 --> 2>)` that the canonicalisation
loop reproduces on every further iteration: renaming swaps the numbered
constants back (they are in the variable map because of the missing
prefix check) and sorting swaps the two children again. -/
def cycle_term_snd : Term :=
  .compound "&&"
    (.cons (.statement "-->" (.atom "$" "2") (.atom "" "1"))
      (.cons (.statement "-->" (.atom "$" "1") (.atom "" "2")) .nil))

/-! ## Theorems -/

/-- C2.  `apply_name_substitute` renames every atom whose name is a key
of the variable map, with no check that the atom is a variable; so
canonicalising `<$a --> a>` also renames the *constant* atom `a`,
yielding `<$1 --> 1>`, while `<$b --> a>` — the same term with only its
variable renamed, which the claim (and the function's own purpose,
renaming variables) requires to be semantically equal — canonicalises to
`<$1 --> a>`, and `semantical_equal_mut` returns `false` on the pair. -/
theorem c2_constant_atom_renamed_divergence :
    formalize_term term_var_a_const_a =
      some (.statement "-->" (.atom "$" "1") (.atom "" "1"))
    ∧ formalize_term term_var_b_const_a =
      some (.statement "-->" (.atom "$" "1") (.atom "" "a"))
    ∧ semantical_equal_mut term_var_a_const_a term_var_b_const_a = some false :=
  ⟨rfl, rfl, rfl⟩

/-- One step of the canonicalisation loop maps `cycle_term_snd` to
itself with the `modified` flag set: renaming swaps the numbered
constants together with the variables and sorting swaps the two
conjuncts back. -/
theorem formalize_step_cycle_fix : formalize_step cycle_term_snd = (cycle_term_snd, true) :=
  rfl

/-- No amount of fuel lets the canonicalisation loop terminate on
`cycle_term_snd`. -/
theorem formalize_loop_cycle_none : ∀ n, formalize_loop n cycle_term_snd = none
  | 0 => rfl
  | n + 1 => by
    have h : formalize_loop (n + 1) cycle_term_snd =
        (let p := formalize_step cycle_term_snd
         if p.2 then formalize_loop n p.1 else some p.1) := rfl
    rw [h, formalize_step_cycle_fix]
    simpa using formalize_loop_cycle_none n

/-- C3.  `formalize_term` does not converge on the term
`(&&, <$a --> b>, <$b --> a>)`: the first iteration produces
`cycle_term_snd`, every further iteration reproduces it with the
`modified` flag still set, so the 256-iteration bound is exhausted and
the function panics (modelled by `none`) — against the claim (and the
source's own comment) that canonicalisation reaches a fixed point within
256 iterations for every term. -/
theorem c3_formalize_term_nonconvergent : formalize_term cycle_term = none := by
  have hstep : formalize_step cycle_term = (cycle_term_snd, true) := rfl
  have h : formalize_term cycle_term =
      (let p := formalize_step cycle_term
       if p.2 then formalize_loop 255 p.1 else some p.1) := rfl
  rw [h, hstep]
  simpa using formalize_loop_cycle_none 255

/-- C9 (counterexample).  Registering the same unlisted operator name
twice through the ONA input translator emits **two** `*setopname` lines
with distinct ids — the duplicate registration is not elided, contrary
to the claim. -/
theorem c9_duplicate_reg_not_elided :
    ona_translate_all [Cmd.REG "myop", Cmd.REG "myop"] 0 =
      .ok (["*setopname 2 ^myop", "*setopname 3 ^myop"], 2) :=
  rfl

/-- C9 (amended).  The ONA input translator suppresses exactly the
pre-registered names of `OPERATOR_NAME_LIST` (empty translation, counter
untouched); every other `REG`, duplicate or not, is emitted as
`*setopname i ^name` with `i` drawn from the cycling counter
(`i = (next+1) % 10 + 1`), so the table wraps around instead of eliding
an overflow; in particular `REG` translation always succeeds and never
aborts the runtime. -/
theorem c9_reg_translation (name : String) (next : Nat) :
    ona_input_translate (.REG name) next =
      (if OPERATOR_NAME_LIST.contains name then .ok ("", next)
       else .ok ("*setopname " ++ toString ((next + 1) % OPERATIONS_MAX + 1) ++ " ^" ++ name,
         (next + 1) % OPERATIONS_MAX)) := by
  by_cases h : OPERATOR_NAME_LIST.contains name <;>
    simp [ona_input_translate, hash_operator_id, h]

/-- C10 (counterexample).  The OpenNARS input translator has no `REM`
arm: a `REM` command falls into the catch-all and yields a translation
error, not the empty string the claim requires of every CIN. -/
theorem c10_opennars_rem_errors :
    opennars_input_translate (.REM "the comment") = .error (.errMsg (.REM "the comment")) :=
  rfl

/-- C10 (amended).  The stated mappings hold — OpenNARS: `NSE` ⇒ task
text, `CYC n` ⇒ bare integer, `VOL n` ⇒ `*volume=n`; ONA: `REG` for an
unlisted name ⇒ `*setopname i ^name` (listed names are suppressed, see
`c9_reg_translation`); PyNARS: `VOL n` ⇒ `/volume n`, `REG` ⇒
`/register name` — and `REM` maps to the empty string in the ONA and
PyNARS translators, but the OpenNARS translator rejects `REM` with a
translation error. -/
theorem c10_input_translator_mappings :
    (∀ t : String, opennars_input_translate (.NSE t) = .ok t)
    ∧ (∀ n : Nat, opennars_input_translate (.CYC n) = .ok (toString n))
    ∧ (∀ n : Nat, opennars_input_translate (.VOL n) = .ok ("*volume=" ++ toString n))
    ∧ (∀ c : String, opennars_input_translate (.REM c) = .error (.errMsg (.REM c)))
    ∧ (∀ (c : String) (next : Nat), ona_input_translate (.REM c) next = .ok ("", next))
    ∧ (∀ (name : String) (next : Nat),
        OPERATOR_NAME_LIST.contains name = false →
        ona_input_translate (.REG name) next =
          .ok ("*setopname " ++ toString ((next + 1) % OPERATIONS_MAX + 1) ++ " ^" ++ name,
            (next + 1) % OPERATIONS_MAX))
    ∧ (∀ c : String, pynars_input_translate (.REM c) = .ok "")
    ∧ (∀ n : Nat, pynars_input_translate (.VOL n) = .ok ("/volume " ++ toString n))
    ∧ (∀ name : String, pynars_input_translate (.REG name) = .ok ("/register " ++ name)) := by
  refine ⟨fun _ => rfl, fun _ => rfl, fun _ => rfl, fun _ => rfl, fun _ _ => rfl,
    fun name next h => ?_, fun _ => rfl, fun _ => rfl, fun _ => rfl⟩
  have h' : ¬name ∈ OPERATOR_NAME_LIST := by simpa using h
  simp [ona_input_translate, hash_operator_id, h']

/-- Witness for `c10_input_translator_mappings`: the ONA conjunct with a
hypothesis, applied at the unlisted name `myop` and counter `0`. -/
theorem c10_input_translator_mappings_witness :
    OPERATOR_NAME_LIST.contains "myop" = false
    ∧ ona_input_translate (.REG "myop") 0 = .ok ("*setopname 2 ^myop", 1) :=
  ⟨rfl, by
    have h := c10_input_translator_mappings.2.2.2.2.2.1 "myop" 0 rfl
    simpa using h⟩

/-- C7 (counterexample).  With an `ANSWER` output already in the cache,
`expect-contains` succeeds but `expect-cycle(0, …)` fails with
`ExpectedNotExists` — the two are not equivalent, contrary to the
claim. -/
theorem c7_expect_cycle_zero_not_contains :
    nal_expect_contains otr_other pred_answer vm_zero cache_answer = .ok (vm_zero, cache_answer)
    ∧ nal_expect_cycle itr_tail otr_other pred_answer "ANSWER" 0 1 vm_zero cache_answer =
        .error .expectedNotExists :=
  ⟨rfl, rfl⟩

/-- C7 (amended).  `expect-cycle` with `max_cycles = 0` never enters its
loop: it issues no `CYC`, drains nothing, scans nothing, and always
returns the `ExpectedNotExists` error — whatever the cache or the
pending outputs hold; so it agrees with `expect-contains` exactly when
the latter also fails. -/
theorem c7_expect_cycle_zero_always_fails (itr : InputTranslator) (otr : OutputTranslator)
    (pred : Output → Bool) (estr : String) (step : Nat)
    (vm : CommandVmRuntime) (cache : List Output) :
    nal_expect_cycle itr otr pred estr 0 step vm cache = .error .expectedNotExists := by
  unfold nal_expect_cycle nal_expect_cycle_go
  simp

/-- C1 (counterexample).  A blocking `fetch_output` whose line
translates to `TERMINATED` returns that output with the status still
`Running`: the status flip the claim requires of `fetch_output` does not
happen (only `try_fetch_output` performs it). -/
theorem c1_fetch_output_leaves_status :
    (fetch_output otr_terminating vm_die).map (fun r => (r.2, r.1.status)) =
      .ok (.TERMINATED "die", .Running) :=
  rfl

/-- C1 (amended).  Only the non-blocking fetch flips the status:
whenever `try_fetch_output` returns a `TERMINATED` output, the status
observed afterwards is `Terminated(Err(description))`; `fetch_output`
returns the translated output with the status unchanged. -/
theorem c1_try_fetch_terminated_sets_status (otr : OutputTranslator)
    (vm vm' : CommandVmRuntime) (d : String) :
    (try_fetch_output otr vm = .ok (vm', some (.TERMINATED d)) →
      vm'.status = .Terminated (.error d))
    ∧ ∀ res, fetch_output otr vm = .ok res → res.1.status = vm.status := by
  obtain ⟨⟨sent, pending⟩, status⟩ := vm
  constructor
  · intro h
    cases pending with
    | nil => simp [try_fetch_output] at h
    | cons line rest =>
      cases ho : otr line with
      | error e => simp [try_fetch_output, ho] at h
      | ok output =>
        cases output
        case TERMINATED desc =>
          simp [try_fetch_output, ho] at h
          obtain ⟨h1, rfl⟩ := h
          subst h1
          rfl
        all_goals simp [try_fetch_output, ho] at h
  · intro res h
    cases pending with
    | nil => simp [fetch_output] at h
    | cons line rest =>
      cases ho : otr line with
      | error e => simp [fetch_output, ho] at h
      | ok output =>
        simp [fetch_output, ho] at h
        subst h
        rfl

/-- Witness for `c1_try_fetch_terminated_sets_status`: the translator
that terminates on every line, applied to a runtime with one pending
line `die`. -/
theorem c1_try_fetch_terminated_sets_status_witness :
    try_fetch_output otr_terminating vm_die =
      .ok (⟨⟨[], []⟩, .Terminated (.error "die")⟩, some (.TERMINATED "die"))
    ∧ (⟨⟨[], []⟩, .Terminated (.error "die")⟩ : CommandVmRuntime).status =
        .Terminated (.error "die") :=
  ⟨rfl,
    (c1_try_fetch_terminated_sets_status otr_terminating vm_die
      ⟨⟨[], []⟩, .Terminated (.error "die")⟩ "die").1 rfl⟩

/-- C4.  The precision epsilon behaves as claimed on (finite) truth and
budget components: the comparison succeeds exactly when `ε = +∞` or
`ε` is finite and `|expected − out| ≤ ε` (so `ε = 0` is exact equality
and a negative or `−∞`/NaN epsilon never matches); an `Empty` expected
truth/budget — and an absent expected truth/budget slot — is a wildcard,
while a present expected truth/budget never matches an output that lacks
one. -/
theorem c4_precision_epsilon_and_wildcards :
    (∀ (e o : ℚ) (ε : FP),
      (is_expected_float (.fin e) (.fin o) ε = true ↔
        ε = FP.inf ∨ ∃ q : ℚ, ε = FP.fin q ∧ |e - o| ≤ q))
    ∧ (∀ (t : EnumTruth) (ε : FP), is_expected_truth .Empty t ε = true)
    ∧ (∀ (b : EnumBudget) (ε : FP), is_expected_budget .Empty b ε = true)
    ∧ (∀ (f ε : FP), is_expected_truth (.Single f) .Empty ε = false)
    ∧ (∀ (f c ε : FP), is_expected_truth (.Double f c) .Empty ε = false)
    ∧ (∀ (p ε : FP), is_expected_budget (.Single p) .Empty ε = false)
    ∧ (∀ (p d ε : FP), is_expected_budget (.Double p d) .Empty ε = false)
    ∧ (∀ (p d q ε : FP), is_expected_budget (.Triple p d q) .Empty ε = false)
    ∧ (∀ (e : EnumTruth) (ε : FP), is_expected_truth_slot (some e) none ε = false)
    ∧ (∀ (o : Option EnumTruth) (ε : FP), is_expected_truth_slot none o ε = true)
    ∧ (∀ (e : EnumBudget) (ε : FP), is_expected_budget_slot (some e) none ε = false)
    ∧ (∀ (o : Option EnumBudget) (ε : FP), is_expected_budget_slot none o ε = true) := by
  refine ⟨?_, fun t ε => rfl, fun b ε => rfl, fun f ε => rfl, fun f c ε => rfl,
    fun p ε => rfl, fun p d ε => rfl, fun p d q ε => rfl,
    fun e ε => rfl, fun o ε => rfl, fun e ε => rfl, fun o ε => rfl⟩
  intro e o ε
  cases ε with
  | nan => simp [is_expected_float, fpEq, fpSub, fpAbs, fpLe]
  | inf => simp [is_expected_float, fpEq, fpSub, fpAbs, fpLe]
  | ninf => simp [is_expected_float, fpEq, fpSub, fpAbs, fpLe]
  | fin q =>
    by_cases hq : q = 0
    · subst hq
      simp [is_expected_float, fpEq, fpSub, fpAbs, fpLe, abs_nonpos_iff, sub_eq_zero]
    · simp [is_expected_float, fpEq, fpSub, fpAbs, fpLe, hq]

/-- C5.  A command whose translation is the empty string is accepted
without writing anything; for a whole call sequence that succeeds, the
lines handed to the child's stdin are exactly the non-empty translations
of the commands, each with one terminating newline appended, in call
order (and the runs touch neither the inbound queue nor the status). -/
theorem c5_input_cmd_write_discipline :
    (∀ (itr : InputTranslator) (vm : CommandVmRuntime) (cmd : Cmd),
      itr cmd = .ok "" → input_cmd itr vm cmd = .ok vm)
    ∧ ∀ (itr : InputTranslator) (cmds : List Cmd) (vm vm' : CommandVmRuntime),
        run_input_cmds itr vm cmds = .ok vm' →
        vm'.process.sent = vm.process.sent ++ translated_lines itr cmds
        ∧ vm'.process.pending = vm.process.pending
        ∧ vm'.status = vm.status := by
  constructor
  · intro itr vm cmd h
    simp [input_cmd, h]
  · intro itr cmds
    induction cmds with
    | nil =>
      intro vm vm' h
      simp only [run_input_cmds] at h
      cases h
      simp [translated_lines]
    | cons c cs ih =>
      intro vm vm' h
      cases hit : itr c with
      | error e => simp [run_input_cmds, input_cmd, hit] at h
      | ok s =>
        by_cases hse : s = ""
        · subst hse
          have h' : run_input_cmds itr vm cs = .ok vm' := by
            simpa [run_input_cmds, input_cmd, hit] using h
          obtain ⟨hs, hp, hst⟩ := ih vm vm' h'
          exact ⟨by simp [translated_lines, hit, hs], hp, hst⟩
        · have h' : run_input_cmds itr { vm with process := vm.process.put_line s } cs =
              .ok vm' := by
            simpa [run_input_cmds, input_cmd, hit, hse] using h
          obtain ⟨hs, hp, hst⟩ := ih _ vm' h'
          refine ⟨?_, by simpa [IoProc.put_line, IoProc.put] using hp, by simpa using hst⟩
          rw [hs]
          simp [translated_lines, hit, hse, IoProc.put_line, IoProc.put, List.append_assoc]

/-- Witness for `c5_input_cmd_write_discipline`: the PyNARS translator
suppresses `REM` without writing, and the run
`NSE "<A --> B>." ; REM "x" ; CYC 5` writes exactly the two lines
`"<A --> B>.\n"` and `"5\n"`. -/
theorem c5_input_cmd_write_discipline_witness :
    pynars_input_translate (.REM "x") = .ok ""
    ∧ input_cmd pynars_input_translate vm_zero (.REM "x") = .ok vm_zero
    ∧ vm_c5_done.process.sent =
        vm_zero.process.sent ++
          translated_lines pynars_input_translate [Cmd.NSE "<A --> B>.", Cmd.REM "x", Cmd.CYC 5] :=
  ⟨rfl,
    c5_input_cmd_write_discipline.1 pynars_input_translate vm_zero (.REM "x") rfl,
    (c5_input_cmd_write_discipline.2 pynars_input_translate
      [Cmd.NSE "<A --> B>.", Cmd.REM "x", Cmd.CYC 5] vm_zero vm_c5_done rfl).1⟩

/-- C6 (counterexample).  A `Terminated(Err)` status *is* replaced: after
`try_fetch_output` flips the status to `Terminated(Err("die"))`, a
subsequent `terminate()` overwrites it with `Terminated(Ok)` — so
`Terminated` is not terminal, contrary to the claim. -/
theorem c6_terminated_status_overwritten :
    (do
      let vm1 ← (try_fetch_output otr_terminating vm_die).map Prod.fst
      let vm2 ← terminate vm1
      pure (vm1.status, vm2.status) : Except VmError (VmStatus × VmStatus)) =
      .ok (.Terminated (.error "die"), .Terminated (.ok ()))
    ∧ VmStatus.Terminated (.error "die") ≠ .Terminated (.ok ()) :=
  ⟨rfl, by decide⟩

/-- C6 (amended).  The runtime status never re-enters `Running`, and
every successful operation either leaves the status unchanged, sets it
to `Terminated(Ok)` (`terminate`, unconditionally — it may overwrite a
`Terminated(Err)`), or sets it to `Terminated(Err(d))` (a
`TERMINATED`-decoding `try_fetch_output`, which may overwrite a
`Terminated(Ok)`). -/
theorem c6_status_transitions (itr : InputTranslator) (otr : OutputTranslator)
    (op : RuntimeOp) (vm vm' : CommandVmRuntime)
    (h : apply_op itr otr op vm = .ok vm') :
    (vm'.status = vm.status ∨ vm'.status = .Terminated (.ok ()) ∨
      ∃ d, vm'.status = .Terminated (.error d))
    ∧ (vm'.status = .Running → vm.status = .Running) := by
  obtain ⟨⟨sent, pending⟩, status⟩ := vm
  cases op with
  | inputCmd c =>
    cases hit : itr c with
    | error e => simp [apply_op, input_cmd, hit] at h
    | ok s =>
      by_cases hse : s = ""
      · simp [apply_op, input_cmd, hit, hse] at h
        subst h
        exact ⟨Or.inl rfl, fun hr => hr⟩
      · simp [apply_op, input_cmd, hit, hse] at h
        subst h
        exact ⟨Or.inl rfl, fun hr => hr⟩
  | fetchOutput =>
    cases pending with
    | nil => simp [apply_op, fetch_output, Except.map] at h
    | cons line rest =>
      cases ho : otr line with
      | error e => simp [apply_op, fetch_output, ho, Except.map] at h
      | ok output =>
        simp [apply_op, fetch_output, ho, Except.map] at h
        subst h
        exact ⟨Or.inl rfl, fun hr => hr⟩
  | tryFetchOutput =>
    cases pending with
    | nil =>
      simp [apply_op, try_fetch_output, Except.map] at h
      subst h
      exact ⟨Or.inl rfl, fun hr => hr⟩
    | cons line rest =>
      cases ho : otr line with
      | error e => simp [apply_op, try_fetch_output, ho, Except.map] at h
      | ok output =>
        cases output <;> simp [apply_op, try_fetch_output, ho, Except.map] at h <;> subst h <;>
          first
            | exact ⟨Or.inl rfl, fun hr => hr⟩
            | exact ⟨Or.inr (Or.inr ⟨_, rfl⟩), fun hr => nomatch hr⟩
  | terminate =>
    simp [apply_op, terminate] at h
    subst h
    exact ⟨Or.inr (Or.inl rfl), fun hr => nomatch hr⟩

/-- Witness for `c6_status_transitions`: `terminate` applied to a fresh
runtime. -/
theorem c6_status_transitions_witness :
    ((⟨⟨[], []⟩, .Terminated (.ok ())⟩ : CommandVmRuntime).status = vm_zero.status ∨
      (⟨⟨[], []⟩, .Terminated (.ok ())⟩ : CommandVmRuntime).status = .Terminated (.ok ()) ∨
      ∃ d, (⟨⟨[], []⟩, .Terminated (.ok ())⟩ : CommandVmRuntime).status =
        .Terminated (.error d))
    ∧ ((⟨⟨[], []⟩, .Terminated (.ok ())⟩ : CommandVmRuntime).status = .Running →
        vm_zero.status = .Running) :=
  c6_status_transitions itr_tail otr_other .terminate vm_zero
    ⟨⟨[], []⟩, .Terminated (.ok ())⟩ rfl

/-- C8 (counterexample).  The only out-of-operator-slots line in the
code base (ONA's `Operator index out of bounds …` message, which the
claim attributes to OpenNARS) is translated by the OpenNARS output
translator to `UNCLASSIFIED` — not to `TERMINATED`. -/
theorem c8_opennars_oob_not_terminated :
    opennars_output_translate pn_stub po_opennars_stub tp_stub oob_line =
      .ok (.UNCLASSIFIED "" none oob_line) :=
  rfl

/-- No branch of the OpenNARS head dispatch constructs the `TERMINATED`
variant. -/
theorem opennars_classify_no_terminated
    (pn : String → String → Except TranslateError (Option Narsese))
    (po : String → Operation) (tp : String → Except TranslateError Narsese)
    (content head tail d : String) :
    opennars_classify pn po tp content head tail ≠ .ok (.TERMINATED d) := by
  intro h
  unfold opennars_classify at h
  repeat' split at h
  all_goals simp at h

/-- C8 (amended).  The ONA output translator recognises the
`Test failed.` banner and emits `TERMINATED` (and maps ONA's
operator-index-out-of-bounds line to `ERROR`); the OpenNARS output
translator has no termination recognition at all — no input line ever
yields `TERMINATED`. -/
theorem c8_termination_recognition :
    (∀ (pn : String → String → Except TranslateError (Option Narsese))
      (po : String → Except TranslateError Operation)
      (pa : String → Except TranslateError (Option Narsese)) (s : String),
      strContains s "Test failed." = true →
      ona_output_translate pn po pa s = .ok (.TERMINATED s))
    ∧ ∀ (pn : String → String → Except TranslateError (Option Narsese))
        (po : String → Operation)
        (tp : String → Except TranslateError Narsese) (s d : String),
        opennars_output_translate pn po tp s ≠ .ok (.TERMINATED d) := by
  constructor
  · intro pn po pa s h
    simp [ona_output_translate, h]
  · intro pn po tp s d h
    unfold opennars_output_translate at h
    cases hsp : strSplitOnce ':' s with
    | some p =>
      rw [hsp] at h
      exact opennars_classify_no_terminated pn po tp s p.1 p.2 d h
    | none =>
      rw [hsp] at h
      exact opennars_classify_no_terminated pn po tp s "" s d h

/-- Witness for `c8_termination_recognition`: the line `Test failed.`
itself, with stub payload parsers. -/
theorem c8_termination_recognition_witness :
    strContains "Test failed." "Test failed." = true
    ∧ ona_output_translate pn_stub po_ona_stub pa_stub "Test failed." =
        .ok (.TERMINATED "Test failed.") :=
  ⟨rfl, c8_termination_recognition.1 pn_stub po_ona_stub pa_stub "Test failed." rfl⟩

end BabelNAR
